import Mathlib

/-
  Verification of the gochat conversational form-filling application.

  Go strings are modelled as lists of characters, Go maps as association
  lists (insertion-ordered, keys unique under the update operation), and
  the file system as an association list from file names to records.
  JSON marshalling of a map[string]string followed by unmarshalling is the
  identity on the underlying key-value mapping, so a persisted record is
  modelled as the record itself.
-/

namespace Gochat

/-- Go strings modelled as lists of characters. -/
abbrev GoString := List Char

/-- Embed a Lean string literal into the Go string model. -/
def gs (s : String) : GoString := s.toList

/-- The code points of Unicode White_Space, the cutset of strings.TrimSpace. -/
def goSpaceCodes : List UInt32 :=
  [0x9, 0xA, 0xB, 0xC, 0xD, 0x20, 0x85, 0xA0, 0x1680,
   0x2000, 0x2001, 0x2002, 0x2003, 0x2004, 0x2005, 0x2006, 0x2007,
   0x2008, 0x2009, 0x200A, 0x2028, 0x2029, 0x202F, 0x205F, 0x3000]

/-- unicode.IsSpace. -/
def isGoSpace (c : Char) : Bool := goSpaceCodes.contains c.val

/-- Drop leading white space (left half of strings.TrimSpace). -/
def trimLeftSpace (s : GoString) : GoString := s.dropWhile isGoSpace

/-- Drop trailing white space (right half of strings.TrimSpace). -/
def trimRightSpace (s : GoString) : GoString := (s.reverse.dropWhile isGoSpace).reverse

/-- strings.TrimSpace. -/
def trimSpace (s : GoString) : GoString := trimRightSpace (trimLeftSpace s)

/-- strings.Split with a single-character separator (all uses in the source
split on ":", "\n" or " "). -/
def splitChar (sep : Char) : GoString → List GoString
  | [] => [[]]
  | c :: rest =>
    match splitChar sep rest with
    | [] => if c = sep then [[], []] else [[c]]
    | h :: t => if c = sep then [] :: h :: t else (c :: h) :: t

/-- strings.SplitN with count 2 and a single-character separator. -/
def splitN2 (sep : Char) : GoString → List GoString
  | [] => [[]]
  | c :: rest =>
    if c = sep then [[], rest]
    else
      match splitN2 sep rest with
      | [] => [[c]]
      | h :: t => (c :: h) :: t

/-- strings.TrimPrefix. -/
def trimPrefixOf (s pre : GoString) : GoString :=
  if pre.isPrefixOf s then s.drop pre.length else s

/-- Go map assignment m[k] = v on an association-list model. -/
def updateAssoc {α β : Type} [DecidableEq α] : List (α × β) → α → β → List (α × β)
  | [], k, v => [(k, v)]
  | (k', v') :: rest, k, v =>
    if k' = k then (k, v) :: rest else (k', v') :: updateAssoc rest k v

/-- Go map lookup m[k] in its (value, ok) form. -/
def lookupAssoc {α β : Type} [DecidableEq α] : List (α × β) → α → Option β
  | [], _ => none
  | (k', v') :: rest, k => if k' = k then some v' else lookupAssoc rest k

/-- A form's accumulated field values: the map[string]string FormData. -/
abbrev Record := List (GoString × GoString)

/-- Go map read m[k] with the zero-value default "". -/
def mapGet (r : Record) (k : GoString) : GoString := (lookupAssoc r k).getD []

/-- One parsed unit of the SAY/SET/SAVE command protocol. -/
inductive Directive : Type
  | say : GoString → Directive
  | set : GoString → GoString → Directive
  | save : Directive
deriving DecidableEq

def setTok : GoString := gs "SET "

def sayTok : GoString := gs "SAY "

def saveTok : GoString := gs "SAVE"

/-- The per-line classification done by the switch in part_001 handleChat
(lines 309-334): trim the line; empty lines and lines matching none of the
three command shapes yield no directive; "SET " is followed by a SplitN on
the first space into field and value (both trimmed); "SAY " yields the
trimmed remainder; a line exactly "SAVE" yields a save. -/
def lineDirective (rawLine : GoString) : Option Directive :=
  let line := trimSpace rawLine
  if line = [] then none
  else if setTok.isPrefixOf line then
    match splitN2 ' ' (trimPrefixOf line setTok) with
    | [f, v] => some (.set (trimSpace f) (trimSpace v))
    | _ => none
  else if sayTok.isPrefixOf line then
    some (.say (trimSpace (trimPrefixOf line sayTok)))
  else if line = saveTok then
    some .save
  else none

/-- The mutable locals of the command loop in part_001 handleChat:
responseText, formUpdates, session.FormData and shouldSave. -/
structure LoopState where
  responseText : GoString
  formUpdates : Record
  formData : Record
  shouldSave : Bool
deriving DecidableEq

/-- The effect of one recognized directive on the loop state: SET writes the
field into both formUpdates and FormData; SAY is kept only when responseText
is still empty (first SAY wins); SAVE raises the shouldSave flag. -/
def applyDirective (st : LoopState) : Directive → LoopState
  | .set f v =>
    { st with formUpdates := updateAssoc st.formUpdates f v,
              formData := updateAssoc st.formData f v }
  | .say t => if st.responseText = [] then { st with responseText := t } else st
  | .save => { st with shouldSave := true }

/-- One iteration of the command loop on a raw line. -/
def stepLine (st : LoopState) (l : GoString) : LoopState :=
  match lineDirective l with
  | some d => applyDirective st d
  | none => st

/-- The command loop over a list of raw lines. -/
def processLines (st : LoopState) (ls : List GoString) : LoopState :=
  ls.foldl stepLine st

/-- The loop state at entry: empty responseText, empty formUpdates, the
session's accumulated FormData, shouldSave false. -/
def initState (formData : Record) : LoopState := ⟨[], [], formData, false⟩

/-- Lines 304-334 of part_001 handleChat: split the assistant content on
newlines and run the command loop. -/
def processContent (formData : Record) (content : GoString) : LoopState :=
  processLines (initState formData) (splitChar '\n' content)

/-- The sequence of valid directives of one assistant message, in line order. -/
def parseDirectives (content : GoString) : List Directive :=
  (splitChar '\n' content).filterMap lineDirective

def sayTextOf : Directive → Option GoString
  | .say t => some t
  | _ => none

def isSaveDir : Directive → Bool
  | .save => true
  | _ => false

/-- The texts of the SAY directives of one assistant message, in line order. -/
def sayTexts (content : GoString) : List GoString :=
  (parseDirectives content).filterMap sayTextOf

/-- The accumulated field values after applying the SET directives of a
directive list in order (last write wins). -/
def applyDirs (fd : Record) (ds : List Directive) : Record :=
  ds.foldl (fun fd d =>
    match d with
    | .set f v => updateAssoc fd f v
    | _ => fd) fd

/-- One entry of the conversation history. -/
structure ChatMessage where
  role : GoString
  content : GoString
deriving DecidableEq

/-- The per-form chat session: conversation history and accumulated FormData. -/
structure ChatSession where
  messages : List ChatMessage
  formData : Record
deriving DecidableEq

/-- The forms/ directory modelled as a map from file name to stored record. -/
abbrev Fs := List (GoString × Record)

instance : DecidableEq Fs := fun a b => instDecidableEqList a b

/-- What the handler writes back: either http.Error with message and status
code, or the JSON body {"message": ..., "updates": ...}. -/
inductive HttpOut : Type
  | errorOut : GoString → Nat → HttpOut
  | jsonOut : GoString → Record → HttpOut
deriving DecidableEq

/-- Line 338 of part_001 handleChat:
fmt.Sprintf("forms/registration-%s.json", session.FormData["License"]).
The enclosing handleChat has formName in scope, but the format string uses
neither it nor any configured primary-key name: the form name "registration"
and the key field "License" are hardcoded. -/
def saveFilename (formName : GoString) (formData : Record) : GoString :=
  gs "forms/registration-" ++ mapGet formData (gs "License") ++ gs ".json"

/-- Lines 299-366 of part_001 handleChat, from the len(resp.Choices) check on:
with no choices nothing is written and no state changes; otherwise the first
choice's content is run through the command loop, the session keeps the
updated FormData, a SAVE overwrites the file at saveFilename with the
complete FormData (MkdirAll and WriteFile modelled as succeeding), and the
JSON body with responseText and formUpdates is written. -/
def handleChoices (formName : GoString) (session : ChatSession) (fs : Fs)
    (choices : List GoString) : ChatSession × Fs × Option HttpOut :=
  match choices with
  | [] => (session, fs, none)
  | content :: _ =>
    let st := processContent session.formData content
    ({ session with formData := st.formData },
     if st.shouldSave then updateAssoc fs (saveFilename formName st.formData) st.formData
     else fs,
     some (.jsonOut st.responseText st.formUpdates))

def userRole : GoString := gs "user"

/-- Lines 285-366 of part_001 handleChat for a non-autoSave request, after the
session is fetched: append the user message to the history, then either fail
the turn with http.Error "AI service error" when the ChatGPT call errored, or
process the decoded choices. The llm argument is the collaborator's result:
none for a failed call, some the list of choice contents otherwise. -/
def handleChat (formName : GoString) (session : ChatSession) (fs : Fs)
    (userText : GoString) (llm : Option (List GoString)) :
    ChatSession × Fs × Option HttpOut :=
  let s1 : ChatSession :=
    { session with messages := session.messages ++ [⟨userRole, userText⟩] }
  match llm with
  | none => (s1, fs, some (.errorOut (gs "AI service error") 500))
  | some choices => handleChoices formName s1 fs choices

/-- Line 246 of main.go loadFormData:
filepath.Join("forms", fmt.Sprintf("%s-%s.json", key, formType)).
Note the component order: the key comes first, then the form type. -/
def loadFilename (formType key : GoString) : GoString :=
  gs "forms/" ++ key ++ gs "-" ++ formType ++ gs ".json"

/-- Lines 245-258 of main.go: read the file named by loadFilename and
unmarshal it; a missing file is an error (modelled none). Unmarshalling a
record stored by this model always succeeds and returns the record. -/
def loadFormData (fs : Fs) (formType key : GoString) : Option Record :=
  lookupAssoc fs (loadFilename formType key)

/-- A parsed field line: display label, field name, optional example (the
FormField struct of part_001, Go field names kept). -/
structure FormField where
  Label : GoString
  Name : GoString
  Example : GoString
deriving DecidableEq

/-- The \w character class of Go regexp: [0-9A-Za-z_]. -/
def isWordChar (c : Char) : Bool :=
  ('a' ≤ c && c ≤ 'z') || ('A' ≤ c && c ≤ 'Z') || ('0' ≤ c && c ≤ '9') || c == '_'

def lbrace : Char := Char.ofNat 0x7b

def rbrace : Char := Char.ofNat 0x7d

/-- Whether the regular expression for a field placeholder matches at the
start of s; returns the captured \w+ group. The pattern is two opening
braces, a dot, one or more word characters, two closing braces. -/
def placeholderAt (s : GoString) : Option GoString :=
  match s with
  | c1 :: c2 :: c3 :: rest =>
    if c1 == lbrace && c2 == lbrace && c3 == '.' then
      let nm := rest.takeWhile isWordChar
      if !nm.isEmpty && [rbrace, rbrace].isPrefixOf (rest.drop nm.length) then some nm
      else none
    else none
  | _ => none

/-- FindStringSubmatch of the placeholder pattern: the leftmost match wins. -/
def findPlaceholder : GoString → Option GoString
  | [] => none
  | c :: rest =>
    match placeholderAt (c :: rest) with
    | some nm => some nm
    | none => findPlaceholder rest

/-- strings.Index for a substring pattern: index of the first occurrence. -/
def substrIndex (pat : GoString) : GoString → Option Nat
  | [] => if pat.isEmpty then some 0 else none
  | c :: rest =>
    if pat.isPrefixOf (c :: rest) then some 0
    else (substrIndex pat rest).map (· + 1)

/-- strings.Trim with a one-character cutset: drop the character from both
ends. -/
def trimCharBoth (c : Char) (s : GoString) : GoString :=
  ((s.dropWhile (· == c)).reverse.dropWhile (· == c)).reverse

def likeTok : GoString := gs "(like "

/-- The body of the parseFormFields loop (part_001 lines 85-117) for one raw
line: trim; skip blank lines; strings.Split on ":" must give exactly two
parts (so a line with more or fewer than one colon is skipped); the trimmed
left part is the label; the right part must contain a placeholder, whose
captured group is the field name; an example is everything after the first
"(like " with ")" trimmed from both ends. -/
def parseFieldLine (rawLine : GoString) : Option FormField :=
  let line := trimSpace rawLine
  if line = [] then none
  else
    match splitChar ':' line with
    | [p0, p1] =>
      match findPlaceholder p1 with
      | none => none
      | some nm =>
        let ex : GoString :=
          match substrIndex likeTok p1 with
          | some idx => trimCharBoth ')' (p1.drop (idx + 6))
          | none => []
        some ⟨trimSpace p0, nm, ex⟩
    | _ => none

/-- part_001 lines 81-120: split the field block on newlines and fold the
line parser, appending each successfully parsed field. -/
def parseFormFields (fieldsStr : GoString) : List FormField :=
  (splitChar '\n' fieldsStr).foldl (fun acc l => acc ++ (parseFieldLine l).toList) []

/- ------------------------------------------------------------------ -/
/- Helper lemmas                                                       -/
/- ------------------------------------------------------------------ -/

theorem lookupAssoc_updateAssoc_self {α β : Type} [DecidableEq α]
    (m : List (α × β)) (k : α) (v : β) :
    lookupAssoc (updateAssoc m k v) k = some v := by
  induction m with
  | nil => simp [updateAssoc, lookupAssoc]
  | cons p rest ih =>
    obtain ⟨k', v'⟩ := p
    by_cases h : k' = k
    · simp [updateAssoc, lookupAssoc, h]
    · simp [updateAssoc, lookupAssoc, h, ih]

/-- The command loop equals folding the directive action over the valid
directives of the lines, in order. -/
theorem processLines_eq_foldl (ls : List GoString) (st : LoopState) :
    processLines st ls = (ls.filterMap lineDirective).foldl applyDirective st := by
  induction ls generalizing st with
  | nil => rfl
  | cons l rest ih =>
    cases h : lineDirective l with
    | none =>
      simp only [processLines, List.foldl_cons, List.filterMap_cons, h, stepLine]
      exact ih st
    | some d =>
      simp only [processLines, List.foldl_cons, List.filterMap_cons, h, stepLine]
      exact ih (applyDirective st d)

theorem foldl_append_filterMap {α β : Type} (f : α → Option β) (ls : List α)
    (acc : List β) :
    ls.foldl (fun a l => a ++ (f l).toList) acc = acc ++ ls.filterMap f := by
  induction ls generalizing acc with
  | nil => simp
  | cons l rest ih =>
    cases h : f l <;> simp [List.filterMap_cons, h, ih]

/-- The schema parser equals mapping the line parser over the lines,
keeping the successes in order. -/
theorem parseFormFields_eq_filterMap (s : GoString) :
    parseFormFields s = (splitChar '\n' s).filterMap parseFieldLine := by
  simpa [parseFormFields] using
    foldl_append_filterMap parseFieldLine (splitChar '\n' s) []

theorem dropWhile_append_of_all {α : Type} (p : α → Bool) (l₁ l₂ : List α)
    (h : ∀ c ∈ l₁, p c = true) :
    (l₁ ++ l₂).dropWhile p = l₂.dropWhile p := by
  induction l₁ with
  | nil => simp
  | cons c t ih =>
    simp only [List.cons_append, List.dropWhile_cons, h c (by simp)]
    exact ih (fun c hc => h c (by simp [hc]))

theorem dropWhile_idem {α : Type} (p : α → Bool) (l : List α) :
    (l.dropWhile p).dropWhile p = l.dropWhile p := by
  induction l with
  | nil => rfl
  | cons c t ih =>
    by_cases h : p c = true
    · simp [List.dropWhile_cons, h, ih]
    · simp [List.dropWhile_cons, h]

theorem trimRightSpace_idem (s : GoString) :
    trimRightSpace (trimRightSpace s) = trimRightSpace s := by
  unfold trimRightSpace
  rw [List.reverse_reverse, dropWhile_idem]

theorem trimRightSpace_trimSpace (s : GoString) :
    trimRightSpace (trimSpace s) = trimSpace s := by
  unfold trimSpace
  exact trimRightSpace_idem _

theorem trimRightSpace_append_spaces (x r : GoString)
    (h : ∀ c ∈ r, isGoSpace c = true) :
    trimRightSpace (x ++ r) = trimRightSpace x := by
  unfold trimRightSpace
  rw [List.reverse_append,
    dropWhile_append_of_all _ _ _ (fun c hc => h c (List.mem_reverse.mp hc))]

theorem trimSpace_eq_nil_iff (s : GoString) :
    trimSpace s = [] ↔ ∀ c ∈ s, isGoSpace c = true := by
  unfold trimSpace trimRightSpace trimLeftSpace
  constructor
  · intro h c hc
    have h' : (s.dropWhile isGoSpace).reverse.dropWhile isGoSpace = [] := by
      simpa [List.reverse_eq_nil_iff] using h
    have hall : ∀ c ∈ s.dropWhile isGoSpace, isGoSpace c = true := by
      intro c hc
      exact (List.dropWhile_eq_nil_iff.mp h') c (List.mem_reverse.mpr hc)
    rcases (List.mem_append.mp
      (by rw [List.takeWhile_append_dropWhile]; exact hc :
        c ∈ s.takeWhile isGoSpace ++ s.dropWhile isGoSpace)) with hmem | hmem
    · exact List.mem_takeWhile_imp hmem
    · exact hall c hmem
  · intro h
    have : s.dropWhile isGoSpace = [] := by
      exact List.dropWhile_eq_nil_iff.mpr (fun c hc => h c hc)
    simp [this]

/-- A SAY directive produced by the line classifier always carries nonempty
text: the trimmed line has "SAY " as a proper prefix and cannot end in white
space, so the trimmed remainder is nonempty. -/
theorem exists_append_of_isPrefixOf {α : Type} [BEq α] [LawfulBEq α]
    (l s : List α) (h : l.isPrefixOf s = true) : ∃ r, l ++ r = s := by
  induction l generalizing s with
  | nil => exact ⟨s, rfl⟩
  | cons c t ih =>
    cases s with
    | nil => simp [List.isPrefixOf] at h
    | cons c' s' =>
      simp only [List.isPrefixOf, Bool.and_eq_true, beq_iff_eq] at h
      obtain ⟨hc, hp⟩ := h
      obtain ⟨r, hr⟩ := ih s' hp
      exact ⟨r, by rw [hc, List.cons_append, hr]⟩

theorem say_text_ne_nil (raw t : GoString)
    (h : lineDirective raw = some (.say t)) : t ≠ [] := by
  simp only [lineDirective] at h
  split at h
  · simp at h
  · split at h
    · split at h
      · simp at h
      · simp at h
    · split at h
      · rename_i h0 h1 hsay
        have ht : t = trimSpace (trimPrefixOf (trimSpace raw) sayTok) :=
          (Directive.say.inj (Option.some.inj h)).symm
        obtain ⟨r, hr⟩ : ∃ r, sayTok ++ r = trimSpace raw :=
          exists_append_of_isPrefixOf sayTok (trimSpace raw) hsay
        have hdrop : trimPrefixOf (trimSpace raw) sayTok = r := by
          unfold trimPrefixOf
          rw [if_pos hsay, ← hr, List.drop_left]
        intro hte
        have hall : ∀ c ∈ r, isGoSpace c = true := by
          rw [ht, hdrop] at hte
          exact (trimSpace_eq_nil_iff r).mp hte
        have hfix : trimRightSpace (trimSpace raw) = trimSpace raw :=
          trimRightSpace_trimSpace raw
        have hsz : trimRightSpace (trimSpace raw) = gs "SAY" := by
          rw [← hr, trimRightSpace_append_spaces sayTok r hall]
          decide
        have h3 : sayTok ++ r = gs "SAY" := by rw [hr, ← hfix, hsz]
        have := congrArg List.length h3
        simp [sayTok, gs] at this
      · split at h
        · simp at h
        · simp at h

theorem foldl_applyDirective_formData (ds : List Directive) (st : LoopState) :
    (ds.foldl applyDirective st).formData = applyDirs st.formData ds := by
  induction ds generalizing st with
  | nil => rfl
  | cons d rest ih =>
    cases d with
    | set f v => simp [List.foldl_cons, applyDirective, applyDirs, ih]
    | say t =>
      by_cases h : st.responseText = [] <;>
        simp [List.foldl_cons, applyDirective, applyDirs, h, ih]
    | save => simp [List.foldl_cons, applyDirective, applyDirs, ih]

theorem foldl_applyDirective_shouldSave (ds : List Directive) (st : LoopState) :
    (ds.foldl applyDirective st).shouldSave = (st.shouldSave || ds.any isSaveDir) := by
  induction ds generalizing st with
  | nil => simp
  | cons d rest ih =>
    cases d with
    | set f v => simp [List.foldl_cons, applyDirective, isSaveDir, ih]
    | say t =>
      by_cases h : st.responseText = [] <;>
        simp [List.foldl_cons, applyDirective, isSaveDir, h, ih]
    | save => simp [List.foldl_cons, applyDirective, isSaveDir, ih]

theorem foldl_applyDirective_responseText_ne (ds : List Directive)
    (st : LoopState) (h : st.responseText ≠ []) :
    (ds.foldl applyDirective st).responseText = st.responseText := by
  induction ds generalizing st with
  | nil => rfl
  | cons d rest ih =>
    cases d with
    | set f v =>
      simp only [List.foldl_cons, applyDirective]
      exact ih _ h
    | say t =>
      simp only [List.foldl_cons, applyDirective, if_neg h]
      exact ih _ h
    | save =>
      simp only [List.foldl_cons, applyDirective]
      exact ih _ h

/-- With an empty responseText at entry and no empty SAY texts, the loop's
responseText ends up being the first SAY text (or empty when none occurs). -/
theorem foldl_applyDirective_responseText (ds : List Directive)
    (st : LoopState) (hst : st.responseText = [])
    (hne : ∀ t, Directive.say t ∈ ds → t ≠ []) :
    (ds.foldl applyDirective st).responseText
      = (ds.filterMap sayTextOf).headD [] := by
  induction ds generalizing st with
  | nil => simpa using hst
  | cons d rest ih =>
    cases d with
    | set f v =>
      simp only [List.foldl_cons, applyDirective, List.filterMap_cons, sayTextOf]
      exact ih _ hst (fun t htm => hne t (by simp [htm]))
    | say t =>
      have ht : t ≠ [] := hne t (by simp)
      simp only [List.foldl_cons, applyDirective, if_pos hst,
        List.filterMap_cons, sayTextOf]
      rw [foldl_applyDirective_responseText_ne rest _ (by simpa using ht)]
      simp
    | save =>
      simp only [List.foldl_cons, applyDirective, List.filterMap_cons, sayTextOf]
      exact ih _ hst (fun t htm => hne t (by simp [htm]))

theorem processContent_formData (fd : Record) (content : GoString) :
    (processContent fd content).formData = applyDirs fd (parseDirectives content) := by
  unfold processContent parseDirectives
  rw [processLines_eq_foldl]
  exact foldl_applyDirective_formData _ _

theorem processContent_shouldSave (fd : Record) (content : GoString) :
    (processContent fd content).shouldSave = (parseDirectives content).any isSaveDir := by
  unfold processContent
  rw [processLines_eq_foldl,
    show (splitChar '\n' content).filterMap lineDirective = parseDirectives content from rfl,
    foldl_applyDirective_shouldSave]
  rfl

theorem processContent_responseText (fd : Record) (content : GoString) :
    (processContent fd content).responseText = (sayTexts content).headD [] := by
  unfold processContent sayTexts parseDirectives
  rw [processLines_eq_foldl]
  apply foldl_applyDirective_responseText
  · rfl
  · intro t hmem
    obtain ⟨l, _, hld⟩ := List.mem_filterMap.mp hmem
    exact say_text_ne_nil l t hld

/-- The file-system outcome of a turn with at least one choice: when any SAVE
directive occurred, the file at saveFilename of the final FormData is
overwritten with that final FormData; otherwise the store is untouched. -/
theorem handleChoices_fs (formName : GoString) (session : ChatSession) (fs : Fs)
    (content : GoString) (rest : List GoString) :
    (handleChoices formName session fs (content :: rest)).2.1
      = if (parseDirectives content).any isSaveDir then
          updateAssoc fs
            (saveFilename formName (applyDirs session.formData (parseDirectives content)))
            (applyDirs session.formData (parseDirectives content))
        else fs := by
  simp only [handleChoices]
  rw [processContent_shouldSave, processContent_formData]

/- ------------------------------------------------------------------ -/
/- Claims                                                              -/
/- ------------------------------------------------------------------ -/

/-- C10: when the decoded response has zero choices, the handler writes
nothing back (no body, no error status), applies no directive and saves no
record; the only state change of the turn is the user message appended to
the session history. -/
theorem c10_zero_choices (formName : GoString) (session : ChatSession) (fs : Fs)
    (userText : GoString) :
    handleChat formName session fs userText (some [])
      = ({ session with messages := session.messages ++ [⟨userRole, userText⟩] },
         fs, none) := rfl

/-- C9 (failing evaluation): after a successful turn of the part_001 handler,
the session history holds only the user message; the raw assistant text is
never appended, contradicting the claim that every turn appends the
assistant message after the user message. -/
theorem c9_assistant_not_in_history :
    (handleChat (gs "registration") ⟨[], []⟩ [] (gs "hello")
        (some [gs "SAY Hi\nSET FirstName John"])).1.messages
      = [⟨userRole, gs "hello"⟩] := by decide

/-- C7: a line yielding no directive can be inserted anywhere without
changing the extracted directives, and the command loop (which has no error
path) equals folding the valid directives of the remaining lines in their
original relative order. -/
theorem c7_lenient_line_protocol (st : LoopState) (pre post : List GoString)
    (noise : GoString) (h : lineDirective noise = none) :
    (pre ++ noise :: post).filterMap lineDirective
        = (pre ++ post).filterMap lineDirective
    ∧ processLines st (pre ++ noise :: post)
        = ((pre ++ post).filterMap lineDirective).foldl applyDirective st := by
  have hfm : (pre ++ noise :: post).filterMap lineDirective
      = (pre ++ post).filterMap lineDirective := by
    simp [List.filterMap_append, List.filterMap_cons, h]
  exact ⟨hfm, by rw [processLines_eq_foldl, hfm]⟩

/-- C7 witness: a natural-language line between a SAY and a SAVE line is
dropped without error and without affecting the two valid directives. -/
theorem c7_lenient_line_protocol_witness :
    ([gs "SAY Hi"] ++ (gs "I cannot comply") :: [gs "SAVE"]).filterMap lineDirective
        = ([gs "SAY Hi"] ++ [gs "SAVE"]).filterMap lineDirective
    ∧ processLines (initState []) ([gs "SAY Hi"] ++ (gs "I cannot comply") :: [gs "SAVE"])
        = (([gs "SAY Hi"] ++ [gs "SAVE"]).filterMap lineDirective).foldl applyDirective
            (initState []) :=
  c7_lenient_line_protocol (initState []) [gs "SAY Hi"] [gs "SAVE"]
    (gs "I cannot comply") (by decide)

/-- C6: the display message of a turn is exactly the text of the first SAY
directive in line order (empty when no SAY occurs), later SAY lines never
change it, and the response still carries the turn's field updates; the save
outcome is determined by the presence of a SAVE directive independently of
any SAY. -/
theorem c6_first_say_surfaced (formName : GoString) (session : ChatSession)
    (fs : Fs) (content : GoString) (rest : List GoString) :
    (handleChoices formName session fs (content :: rest)).2.2
        = some (.jsonOut ((sayTexts content).headD [])
            (processContent session.formData content).formUpdates)
    ∧ (processContent session.formData content).shouldSave
        = (parseDirectives content).any isSaveDir := by
  refine ⟨?_, processContent_shouldSave _ _⟩
  simp only [handleChoices]
  rw [processContent_responseText]

/-- C2 counterexample: for the turn text "SET FirstName Ann\nSAVE\nSET
License 999" the record persisted by that turn's save contains the License
value set on the line after SAVE, and is even addressed by it; the claim
says a Set after a Save must not be part of that save. -/
theorem c2_set_after_save_persisted :
    lookupAssoc
      (handleChoices (gs "registration") ⟨[], []⟩ []
        [gs "SET FirstName Ann\nSAVE\nSET License 999"]).2.1
      (gs "forms/registration-999.json")
      = some [(gs "FirstName", gs "Ann"), (gs "License", gs "999")] := by decide

/-- C2 amended: SET directives are applied in line order (last write wins),
but the turn performs at most one save, after the whole message has been
processed, using the final accumulated field map — so a SET appearing after
a SAVE is included in the record persisted by that same turn. -/
theorem c2_save_uses_final_state (formName : GoString) (session : ChatSession)
    (fs : Fs) (content : GoString) (rest : List GoString) :
    (handleChoices formName session fs (content :: rest)).2.1
      = if (parseDirectives content).any isSaveDir then
          updateAssoc fs
            (saveFilename formName (applyDirs session.formData (parseDirectives content)))
            (applyDirs session.formData (parseDirectives content))
        else fs :=
  handleChoices_fs formName session fs content rest

/-- C3 counterexample: a SAVE with no License in the accumulated field map
writes the (empty) record under the placeholder path
"forms/registration-.json" and answers with the normal JSON body — no
caller-visible error is surfaced, contradicting the claim. -/
theorem c3_missing_key_silent_write :
    handleChoices (gs "registration") ⟨[], []⟩ [] [gs "SAVE"]
      = (⟨[], []⟩, [(gs "forms/registration-.json", [])],
         some (.jsonOut [] [])) := by decide

/-- C3 amended: when a turn saves while the License field is absent from the
final accumulated field map, the record is written under the placeholder
path "forms/registration-.json" (the empty string is interpolated as the
key) and the turn still answers with the normal JSON body, surfacing no
error. -/
theorem c3_missing_key_behavior (formName : GoString) (session : ChatSession)
    (fs : Fs) (content : GoString) (rest : List GoString)
    (hsave : (parseDirectives content).any isSaveDir = true)
    (hmiss : lookupAssoc (applyDirs session.formData (parseDirectives content))
        (gs "License") = none) :
    (handleChoices formName session fs (content :: rest)).2.1
      = updateAssoc fs (gs "forms/registration-.json")
          (applyDirs session.formData (parseDirectives content))
    ∧ ∃ msg upd, (handleChoices formName session fs (content :: rest)).2.2
        = some (.jsonOut msg upd) := by
  constructor
  · have hfn : saveFilename formName
        (applyDirs session.formData (parseDirectives content))
        = gs "forms/registration-.json" := by
      unfold saveFilename mapGet
      rw [hmiss]
      decide
    rw [handleChoices_fs, if_pos hsave, hfn]
  · exact ⟨_, _, rfl⟩

/-- C3 witness: the bare turn text "SAVE" on an empty session saves under
the placeholder path and produces a normal JSON response. -/
theorem c3_missing_key_behavior_witness :
    (handleChoices (gs "registration") ⟨[], []⟩ [] [gs "SAVE"]).2.1
      = updateAssoc [] (gs "forms/registration-.json")
          (applyDirs [] (parseDirectives (gs "SAVE")))
    ∧ ∃ msg upd, (handleChoices (gs "registration") ⟨[], []⟩ [] [gs "SAVE"]).2.2
        = some (.jsonOut msg upd) :=
  c3_missing_key_behavior (gs "registration") ⟨[], []⟩ [] (gs "SAVE") []
    (by decide) (by decide)

/-- C4 counterexample: the forms "visit" and "registration" are distinct,
yet for the same License value their save addresses coincide — the address
is not collision-free across forms. -/
theorem c4_distinct_forms_same_address :
    (gs "visit" ≠ gs "registration")
    ∧ saveFilename (gs "visit") [(gs "License", gs "555-55-5555")]
        = saveFilename (gs "registration") [(gs "License", gs "555-55-5555")] := by
  decide

/-- C4 amended: the storage address is a pure deterministic function of the
License field value alone: it is injective in that value, but constant in
the form name (the path hardcodes "registration"), so two distinct forms
with the same key value save to the same address. -/
theorem c4_address_ignores_form_name (f₁ f₂ : GoString) (fd₁ fd₂ : Record) :
    saveFilename f₁ fd₁ = saveFilename f₂ fd₂
      ↔ mapGet fd₁ (gs "License") = mapGet fd₂ (gs "License") := by
  unfold saveFilename
  constructor
  · intro h
    exact List.append_cancel_left (List.append_cancel_right h)
  · intro h
    rw [h]

/-- C5 (failing evaluation): saving the record keyed by License
"555-55-5555" stores it at "forms/registration-555-55-5555.json" (the path
the README documents), but loadFormData for the same form and key reads
"forms/555-55-5555-registration.json" — its Sprintf interpolates key and
form type in the opposite order — so the load after the save finds nothing
instead of returning the saved record. -/
theorem c5_load_misses_saved_record :
    loadFormData
      (updateAssoc []
        (saveFilename (gs "registration") [(gs "License", gs "555-55-5555")])
        [(gs "License", gs "555-55-5555")])
      (gs "registration") (gs "555-55-5555") = none
    ∧ lookupAssoc
      (updateAssoc []
        (saveFilename (gs "registration") [(gs "License", gs "555-55-5555")])
        [(gs "License", gs "555-55-5555")])
      (gs "forms/registration-555-55-5555.json")
      = some [(gs "License", gs "555-55-5555")] := by decide

/-- C8 counterexample: the line "Time: \x7b\x7b.Time\x7d\x7d (like 10:30)"
carries a recognizable placeholder in its right-hand side, but because the
code splits on every colon and demands exactly two parts, the colon inside
the example makes the split three-way and the line yields no field —
contradicting the claim that splitting happens on the first colon only. -/
theorem c8_colon_in_example_skipped :
    parseFormFields (gs "Time: \x7b\x7b.Time\x7d\x7d (like 10:30)") = []
    ∧ findPlaceholder (gs " \x7b\x7b.Time\x7d\x7d (like 10:30)")
        = some (gs "Time") := by decide

/-- C8 amended: the field schema parser is a pure per-line function applied
to the lines in order (unparsable lines are silently skipped, order of the
successes is preserved); a non-blank line yields a field only when splitting
on colons gives exactly two parts — so a line whose right side contains a
further colon is skipped even with a recognizable placeholder — and
otherwise the trimmed left side is the label, the placeholder's captured
group the name, and the optional trailing parenthetical the example. -/
theorem c8_field_parser_behavior :
    (∀ s, parseFormFields s = (splitChar '\n' s).filterMap parseFieldLine)
    ∧ parseFieldLine (gs "Time: \x7b\x7b.Time\x7d\x7d (like 10:30)") = none
    ∧ parseFieldLine (gs "FirstName: \x7b\x7b.FirstName\x7d\x7d (like John)")
        = some ⟨gs "FirstName", gs "FirstName", gs "John"⟩
    ∧ parseFieldLine (gs "this line has no placeholder") = none :=
  ⟨parseFormFields_eq_filterMap, by decide, by decide, by decide⟩

/-- C1: for the assistant turn text "SET FirstName John\nSET License
555-55-5555\nSAY Thanks\nSAVE" on any session state, the turn answers with
displayMessage "Thanks" and fieldUpdates mapping FirstName to John and
License to 555-55-5555, the save flag is raised, and the record persisted at
the address keyed by "555-55-5555" is the complete accumulated field map:
the prior session FormData with the two SET values written over it. -/
theorem c1_registration_save_turn (session : ChatSession) (fs : Fs)
    (rest : List GoString) :
    handleChoices (gs "registration") session fs
        (gs "SET FirstName John\nSET License 555-55-5555\nSAY Thanks\nSAVE" :: rest)
      = ({ session with formData := (updateAssoc
            (updateAssoc session.formData (gs "FirstName") (gs "John"))
            (gs "License") (gs "555-55-5555")) },
         updateAssoc fs (gs "forms/registration-555-55-5555.json")
           (updateAssoc (updateAssoc session.formData (gs "FirstName") (gs "John"))
             (gs "License") (gs "555-55-5555")),
         some (.jsonOut (gs "Thanks")
           [(gs "FirstName", gs "John"), (gs "License", gs "555-55-5555")]))
    ∧ (processContent session.formData
        (gs "SET FirstName John\nSET License 555-55-5555\nSAY Thanks\nSAVE")).shouldSave
        = true
    ∧ lookupAssoc
        (handleChoices (gs "registration") session fs
          (gs "SET FirstName John\nSET License 555-55-5555\nSAY Thanks\nSAVE" :: rest)).2.1
        (gs "forms/registration-555-55-5555.json")
      = some (updateAssoc (updateAssoc session.formData (gs "FirstName") (gs "John"))
          (gs "License") (gs "555-55-5555")) := by
  have hds : parseDirectives
      (gs "SET FirstName John\nSET License 555-55-5555\nSAY Thanks\nSAVE")
      = [.set (gs "FirstName") (gs "John"), .set (gs "License") (gs "555-55-5555"),
         .say (gs "Thanks"), .save] := by decide
  have hne : ¬(gs "FirstName" = gs "License") := by decide
  have hstate : processContent session.formData
      (gs "SET FirstName John\nSET License 555-55-5555\nSAY Thanks\nSAVE")
      = ⟨gs "Thanks", [(gs "FirstName", gs "John"), (gs "License", gs "555-55-5555")],
         updateAssoc (updateAssoc session.formData (gs "FirstName") (gs "John"))
           (gs "License") (gs "555-55-5555"), true⟩ := by
    unfold processContent
    rw [processLines_eq_foldl,
      show (splitChar '\n'
          (gs "SET FirstName John\nSET License 555-55-5555\nSAY Thanks\nSAVE")).filterMap
          lineDirective
        = parseDirectives
            (gs "SET FirstName John\nSET License 555-55-5555\nSAY Thanks\nSAVE") from rfl,
      hds]
    simp [applyDirective, initState, updateAssoc, hne]
  have hfn : saveFilename (gs "registration")
      (updateAssoc (updateAssoc session.formData (gs "FirstName") (gs "John"))
        (gs "License") (gs "555-55-5555"))
      = gs "forms/registration-555-55-5555.json" := by
    unfold saveFilename mapGet
    rw [lookupAssoc_updateAssoc_self]
    decide
  refine ⟨?_, ?_, ?_⟩
  · simp only [handleChoices, hstate, hfn]
    simp
  · rw [hstate]
  · simp only [handleChoices, hstate, hfn]
    simp [lookupAssoc_updateAssoc_self]

end Gochat
